import Mathlib

/-!
Verification of the chat-utility repository (`src/common/chat_util.py`,
`src/common/json_util.py`, `src/common/azure_openai_factory.py`,
`examples/azure_batch_chat.py`) by shallow embedding into Lean 4.

Remote services (the Azure OpenAI chat endpoint, the batch-job service) are
modelled as explicit function parameters: an `oracle` mapping a message history
to the assistant reply (possibly failing), and a `statuses` stream of job
states.  Python `ValueError`/exceptions become `Except`; Python truthiness of
optional strings (`if system_prompt:`) is modelled by `pyTruthyStr`.
-/

namespace ChatRepo

/-- Python truthiness of an optional string: `None` and `""` are falsy. -/
def pyTruthyStr : Option String → Bool
  | Option.none => false
  | some s => s ≠ ""

/-- A chat message, `{"role": ..., "content": ...}`. -/
structure Message where
  role : String
  content : String
deriving DecidableEq, Repr

/-- The history seeded at construction (and restored by `reset`):
`if system_prompt: self.messages.append({"role": "system", "content": system_prompt})`. -/
def initialMessages : Option String → List Message
  | Option.none => []
  | some s => if s = "" then [] else [⟨"system", s⟩]

/-- Embedding of `ChatSession.__init__`'s state.  The duck-typed
`client_factory` carries no state relevant to the history claims and the
remote call is supplied per-`send` as an oracle, so it is not a field. -/
structure ChatSession where
  deployment : String
  temperature : Rat
  initialSystemPrompt : Option String
  messages : List Message
deriving Repr

/-- `ChatSession.__init__`: raises `ValueError` when the deployment name is
falsy, otherwise seeds the history from the system prompt. -/
def ChatSession.init (deployment : String) (systemPrompt : Option String)
    (temperature : Rat) : Except String ChatSession :=
  if deployment = "" then
    .error "deployment (model) name is required for ChatSession."
  else
    .ok { deployment := deployment
          temperature := temperature
          initialSystemPrompt := systemPrompt
          messages := initialMessages systemPrompt }

/-- `ChatSession.send`: appends the user message, calls the remote chat API
(the `oracle`, receiving the full history as the source passes
`messages=self.messages`), and on success appends the assistant reply.
On a raised exception the user message stays appended, as in the source
(the mutation happens before the remote call). -/
def ChatSession.send {ε : Type} (oracle : List Message → Except ε String)
    (sess : ChatSession) (userMessage : String) :
    ChatSession × Except ε String :=
  let withUser := { sess with
    messages := sess.messages ++ [⟨"user", userMessage⟩] }
  match oracle withUser.messages with
  | .ok text =>
      ({ withUser with
          messages := withUser.messages ++ [⟨"assistant", text⟩] }, .ok text)
  | .error e => (withUser, .error e)

/-- Iterated `send` calls: final session state together with the outcome of
each call, in order. -/
def ChatSession.sendMany {ε : Type} (oracle : List Message → Except ε String)
    (sess : ChatSession) : List String → ChatSession × List (Except ε String)
  | [] => (sess, [])
  | m :: ms =>
      ((ChatSession.sendMany oracle (sess.send oracle m).1 ms).1,
        (sess.send oracle m).2 ::
          (ChatSession.sendMany oracle (sess.send oracle m).1 ms).2)

/-- `ChatSession.reset`: clear history, re-seed the original system message if
one existed at construction (`if self._initial_system_prompt:`). -/
def ChatSession.reset (sess : ChatSession) : ChatSession :=
  { sess with messages := initialMessages sess.initialSystemPrompt }

theorem ChatSession.send_length_ok {ε : Type}
    (oracle : List Message → Except ε String) (sess : ChatSession)
    (m : String) (t : String) (h : (sess.send oracle m).2 = .ok t) :
    (sess.send oracle m).1.messages.length = sess.messages.length + 2 := by
  unfold ChatSession.send at *
  cases ho : oracle (sess.messages ++ [⟨"user", m⟩]) with
  | ok text => simp [ho]
  | error e => simp [ho] at h

theorem ChatSession.sendMany_length {ε : Type}
    (oracle : List Message → Except ε String) (msgs : List String) :
    ∀ sess : ChatSession,
      (∀ r ∈ (ChatSession.sendMany oracle sess msgs).2, r.isOk = true) →
      (ChatSession.sendMany oracle sess msgs).1.messages.length =
        sess.messages.length + 2 * msgs.length := by
  induction msgs with
  | nil => intro sess _; simp [ChatSession.sendMany]
  | cons m ms ih =>
      intro sess hok
      simp only [ChatSession.sendMany] at hok ⊢
      have hhead : (sess.send oracle m).2.isOk = true :=
        hok _ (List.mem_cons_self _ _)
      have htail : ∀ r ∈ (ChatSession.sendMany oracle
          (sess.send oracle m).1 ms).2, r.isOk = true :=
        fun r hr => hok r (List.mem_cons_of_mem _ hr)
      obtain ⟨t, ht⟩ : ∃ t, (sess.send oracle m).2 = .ok t := by
        cases h : (sess.send oracle m).2 with
        | ok t => exact ⟨t, rfl⟩
        | error e => rw [h] at hhead; simp [Except.isOk, Except.toBool] at hhead
      have h2 := ChatSession.send_length_ok oracle sess m t ht
      have h3 := ih (sess.send oracle m).1 htail
      rw [h3, h2]
      simp
      omega

theorem ChatSession.init_ok (d : String) (sp : Option String) (t : Rat)
    (sess0 : ChatSession) (h : ChatSession.init d sp t = .ok sess0) :
    sess0.messages = initialMessages sp ∧ sess0.initialSystemPrompt = sp := by
  unfold ChatSession.init at h
  split at h
  · exact absurd h (by simp)
  · injection h with h
    subst h
    exact ⟨rfl, rfl⟩

theorem initialMessages_length (sp : Option String) :
    (initialMessages sp).length = if pyTruthyStr sp then 1 else 0 := by
  cases sp with
  | none => rfl
  | some s =>
      by_cases hs : s = "" <;> simp [initialMessages, pyTruthyStr, hs]

theorem ChatSession.sendMany_initialSystemPrompt {ε : Type}
    (oracle : List Message → Except ε String) (msgs : List String) :
    ∀ sess : ChatSession,
      (ChatSession.sendMany oracle sess msgs).1.initialSystemPrompt =
        sess.initialSystemPrompt := by
  induction msgs with
  | nil => intro sess; rfl
  | cons m ms ih =>
      intro sess
      have hsend : (sess.send oracle m).1.initialSystemPrompt =
          sess.initialSystemPrompt := by
        unfold ChatSession.send
        cases h : oracle (sess.messages ++ [⟨"user", m⟩]) <;> simp [h]
      simp only [ChatSession.sendMany]
      rw [ih, hsend]

/-- Sample remote oracle used by the concrete witnesses: always succeeds. -/
def sampleOracle : List Message → Except String String :=
  fun _ => .ok "reply"

/-- Sample session state, as produced by
`ChatSession.init "gpt" (some "sys") 1`. -/
def sampleSession : ChatSession :=
  { deployment := "gpt"
    temperature := 1
    initialSystemPrompt := some "sys"
    messages := initialMessages (some "sys") }

/-- C2: a session constructed with a (truthy) system prompt starts with
exactly one history entry, and after K successful `send` calls the history
length is 1 + 2K when a system prompt was set at construction, else 2K. -/
theorem chat_session_history_length {ε : Type} (d : String) (sp : Option String)
    (t : Rat) (sess0 : ChatSession) (h : ChatSession.init d sp t = .ok sess0)
    (oracle : List Message → Except ε String) (msgs : List String)
    (hok : ∀ r ∈ (ChatSession.sendMany oracle sess0 msgs).2, r.isOk = true) :
    sess0.messages.length = (if pyTruthyStr sp then 1 else 0) ∧
    (ChatSession.sendMany oracle sess0 msgs).1.messages.length =
      (if pyTruthyStr sp then 1 else 0) + 2 * msgs.length := by
  obtain ⟨hm, _⟩ := ChatSession.init_ok d sp t sess0 h
  have h0 : sess0.messages.length = if pyTruthyStr sp then 1 else 0 := by
    rw [hm, initialMessages_length]
  refine ⟨h0, ?_⟩
  rw [ChatSession.sendMany_length oracle msgs sess0 hok, h0]

theorem chat_session_history_length_witness :
    sampleSession.messages.length = (if pyTruthyStr (some "sys") then 1 else 0) ∧
    (ChatSession.sendMany sampleOracle sampleSession ["a", "b"]).1.messages.length =
      (if pyTruthyStr (some "sys") then 1 else 0) +
        2 * (["a", "b"] : List String).length :=
  chat_session_history_length "gpt" (some "sys") 1 sampleSession rfl
    sampleOracle ["a", "b"] (by decide)

/-- C3: after any sequence of `send` calls, `reset()` restores the history to
exactly its state at construction (one system message or empty). -/
theorem chat_session_reset_restores_initial {ε : Type} (d : String)
    (sp : Option String) (t : Rat) (sess0 : ChatSession)
    (h : ChatSession.init d sp t = .ok sess0)
    (oracle : List Message → Except ε String) (msgs : List String) :
    ((ChatSession.sendMany oracle sess0 msgs).1.reset).messages =
      sess0.messages := by
  obtain ⟨hm, hsp⟩ := ChatSession.init_ok d sp t sess0 h
  simp only [ChatSession.reset]
  rw [ChatSession.sendMany_initialSystemPrompt, hsp, hm]

theorem chat_session_reset_restores_initial_witness :
    ((ChatSession.sendMany sampleOracle sampleSession ["a", "b"]).1.reset).messages =
      sampleSession.messages :=
  chat_session_reset_restores_initial "gpt" (some "sys") 1 sampleSession rfl
    sampleOracle ["a", "b"]

/-- Errors escaping `batch_chat`: a locally raised `ValueError`, or an
exception propagated unchanged from a remote call. -/
inductive BatchError (ε : Type) where
  | valueError (msg : String)
  | remote (e : ε)
deriving Repr

/-- The worker body `_call` of `ChatUtil.batch_chat`: build a fresh
`ChatSession` for the single prompt and send it.  `batch_chat` has already
checked the deployment name, so the session record is built directly. -/
def batchWorkerCall {ε : Type} (oracle : List Message → Except ε String)
    (deployment : String) (systemPrompt : Option String) (temperature : Rat)
    (p : String) : Except ε String :=
  (({ deployment := deployment
      temperature := temperature
      initialSystemPrompt := systemPrompt
      messages := initialMessages systemPrompt } : ChatSession).send oracle p).2

/-- The shared future store after the executor has run the futures whose
indices are listed in `sched`, in that completion order.  Each future's value
depends only on its own prompt, never on when it ran relative to others. -/
def runSchedule {ε : Type} (call : String → Except ε String)
    (prompts : List String) :
    List Nat → (Nat → Option (Except ε String)) → Nat →
      Option (Except ε String)
  | [], store => store
  | i :: rest, store =>
      runSchedule call prompts rest
        (fun j => if j = i then (prompts[j]?).map call else store j)

/-- The collection loop `for fut in futures: results.append(fut.result())`:
walk the futures in submission order; `Option.none` models blocking forever on
a future that never completed, and the first failure is re-raised. -/
def gather {ε : Type} (store : Nat → Option (Except ε String)) :
    List Nat → Option (Except (BatchError ε) (List String))
  | [] => some (.ok [])
  | i :: rest =>
      match store i with
      | Option.none => Option.none
      | some (.error e) => some (.error (.remote e))
      | some (.ok r) =>
          match gather store rest with
          | Option.none => Option.none
          | some (.error e) => some (.error e)
          | some (.ok rs) => some (.ok (r :: rs))

/-- `ChatUtil.batch_chat`, with the thread pool's completion order made
explicit as `sched`.  The outer `Option.none` marks an execution that blocks
forever; it cannot arise once every submitted future completes. -/
def batch_chat {ε : Type} (deployment : String) (prompts : List String)
    (systemPrompt : Option String) (temperature : Rat) (maxWorkers : Nat)
    (oracle : List Message → Except ε String) (sched : List Nat) :
    Option (Except (BatchError ε) (List String)) :=
  if deployment = "" then
    some (.error
      (.valueError "deployment (model) name is required for batch_chat."))
  else if prompts.isEmpty then some (.ok [])
  else if maxWorkers = 0 then
    some (.error (.valueError "max_workers must be greater than 0"))
  else
    gather
      (runSchedule (batchWorkerCall oracle deployment systemPrompt temperature)
        prompts sched (fun _ => Option.none))
      (List.range prompts.length)

theorem runSchedule_apply {ε : Type} (call : String → Except ε String)
    (prompts : List String) :
    ∀ (sched : List Nat) (store : Nat → Option (Except ε String)) (i : Nat),
      runSchedule call prompts sched store i =
        if i ∈ sched then (prompts[i]?).map call else store i := by
  intro sched
  induction sched with
  | nil => intro store i; simp [runSchedule]
  | cons a rest ih =>
      intro store i
      simp only [runSchedule]
      rw [ih]
      by_cases hr : i ∈ rest
      · simp [hr]
      · by_cases ha : i = a
        · simp [hr, ha]
        · simp [hr, ha]

theorem gather_range' {ε : Type} (call : String → Except ε String)
    (reply : String → String) (store : Nat → Option (Except ε String)) :
    ∀ (prompts : List String) (k : Nat),
      (∀ i, store (k + i) = (prompts[i]?).map call) →
      (∀ p ∈ prompts, call p = .ok (reply p)) →
      gather store (List.range' k prompts.length) =
        some (.ok (prompts.map reply)) := by
  intro prompts
  induction prompts with
  | nil => intro k _ _; simp [gather]
  | cons p ps ih =>
      intro k hstore hok
      have h0 : store k = some (.ok (reply p)) := by
        have h := hstore 0
        simp only [Nat.add_zero, List.getElem?_cons_zero, Option.map_some'] at h
        rw [h, hok p (by simp)]
      have htail : ∀ i, store (k + 1 + i) = (ps[i]?).map call := by
        intro i
        have h := hstore (i + 1)
        have harg : k + (i + 1) = k + 1 + i := by omega
        rw [harg] at h
        simpa using h
      have hrest := ih (k + 1) htail (fun q hq => hok q (by simp [hq]))
      simp only [List.length_cons, List.range'_succ, gather, h0, hrest,
        List.map_cons]

theorem gather_no_ok_of_bad {ε : Type}
    (store : Nat → Option (Except ε String)) :
    ∀ (idxs : List Nat),
      (∃ i ∈ idxs, store i = Option.none ∨ ∃ e, store i = some (.error e)) →
      ∀ l, gather store idxs ≠ some (.ok l) := by
  intro idxs
  induction idxs with
  | nil =>
      rintro ⟨i, hi, _⟩
      cases hi
  | cons a rest ih =>
      rintro ⟨i, hi, hbad⟩ l h
      rw [gather] at h
      rcases List.mem_cons.mp hi with rfl | hi'
      · rcases hbad with h0 | ⟨e, h0⟩ <;> rw [h0] at h <;> simp at h
      · cases ha : store a with
        | none => rw [ha] at h; simp at h
        | some r =>
            cases r with
            | error e => rw [ha] at h; simp at h
            | ok v =>
                rw [ha] at h
                cases hrest : gather store rest with
                | none => rw [hrest] at h; simp at h
                | some rr =>
                    cases rr with
                    | error e => rw [hrest] at h; simp at h
                    | ok rs =>
                        exact ih ⟨i, hi', hbad⟩ rs hrest

/-- C1: when every remote call succeeds, `batch_chat` returns one reply per
prompt, in input order (the reply produced for `prompts[i]` sits at index
`i`), for every completion order of the thread pool. -/
theorem batch_chat_preserves_input_order {ε : Type} (deployment : String)
    (prompts : List String) (systemPrompt : Option String) (temperature : Rat)
    (maxWorkers : Nat) (oracle : List Message → Except ε String)
    (sched : List Nat) (reply : String → String)
    (hd : deployment ≠ "") (hw : 1 ≤ maxWorkers)
    (hsched : ∀ i, i < prompts.length → i ∈ sched)
    (hok : ∀ p ∈ prompts,
      batchWorkerCall oracle deployment systemPrompt temperature p =
        .ok (reply p)) :
    batch_chat deployment prompts systemPrompt temperature maxWorkers oracle
        sched = some (.ok (prompts.map reply)) := by
  unfold batch_chat
  rw [if_neg hd]
  by_cases hp : prompts.isEmpty
  · rw [if_pos hp]
    rw [List.isEmpty_iff] at hp
    simp [hp]
  · rw [if_neg hp, if_neg (by omega)]
    set call := batchWorkerCall oracle deployment systemPrompt temperature
      with hcall
    have hstore : ∀ i,
        runSchedule call prompts sched (fun _ => Option.none) i =
          (prompts[i]?).map call := by
      intro i
      rw [runSchedule_apply]
      by_cases hi : i ∈ sched
      · simp [hi]
      · have hlen : prompts.length ≤ i := by
          by_contra hlt
          push_neg at hlt
          exact hi (hsched i hlt)
        simp [hi, List.getElem?_eq_none hlen]
    rw [List.range_eq_range']
    exact gather_range' call reply _ prompts 0
      (fun i => by simpa using hstore i) hok

/-- Sample completion order for the witness: the third future finishes first. -/
def sampleSched : List Nat := [2, 0, 1]

theorem batch_chat_preserves_input_order_witness :
    batch_chat "gpt" ["a", "b", "c"] (some "sys") 1 5 sampleOracle
        sampleSched =
      some (.ok ["reply", "reply", "reply"]) :=
  batch_chat_preserves_input_order "gpt" ["a", "b", "c"] (some "sys") 1 5
    sampleOracle sampleSched (fun _ => "reply") (by decide) (by decide)
    (by decide) (fun p _ => rfl)

/-- C7: if the remote call for any prompt raises, `batch_chat` never returns a
result list (the exception propagates; there are no partial results). -/
theorem batch_chat_aborts_on_failure {ε : Type} (deployment : String)
    (prompts : List String) (systemPrompt : Option String) (temperature : Rat)
    (maxWorkers : Nat) (oracle : List Message → Except ε String)
    (sched : List Nat)
    (hfail : ∃ p ∈ prompts, ∃ e,
      batchWorkerCall oracle deployment systemPrompt temperature p =
        .error e) :
    ∀ l, batch_chat deployment prompts systemPrompt temperature maxWorkers
        oracle sched ≠ some (.ok l) := by
  intro l h
  unfold batch_chat at h
  by_cases hd : deployment = ""
  · rw [if_pos hd] at h; simp at h
  rw [if_neg hd] at h
  by_cases hp : prompts.isEmpty
  · obtain ⟨p, hmem, _⟩ := hfail
    rw [List.isEmpty_iff] at hp
    rw [hp] at hmem
    cases hmem
  rw [if_neg hp] at h
  by_cases hw : maxWorkers = 0
  · rw [if_pos hw] at h; simp at h
  rw [if_neg hw] at h
  obtain ⟨p, hmem, e, he⟩ := hfail
  obtain ⟨i, hilen, hpi⟩ := List.mem_iff_getElem.mp hmem
  refine gather_no_ok_of_bad _ (List.range prompts.length)
    ⟨i, List.mem_range.mpr hilen, ?_⟩ l h
  rw [runSchedule_apply]
  by_cases hi : i ∈ sched
  · right
    refine ⟨e, ?_⟩
    rw [if_pos hi, List.getElem?_eq_getElem hilen, hpi]
    simp [he]
  · left
    rw [if_neg hi]

/-- Remote oracle used by the failure witness: every call raises. -/
def failingOracle : List Message → Except String String :=
  fun _ => .error "boom"

theorem batch_chat_aborts_on_failure_witness :
    batch_chat "gpt" ["a"] Option.none 1 5 failingOracle [0] ≠
      some (.ok ["reply"]) :=
  batch_chat_aborts_on_failure "gpt" ["a"] Option.none 1 5 failingOracle [0]
    ⟨"a", by simp, "boom", rfl⟩ ["reply"]

/-- JSON values, as produced by `json.dumps` and recovered by `json.loads`.
Numbers are modelled exactly: integers as `Int`, floats by the rational value
they denote. -/
inductive Json where
  | null
  | bool (b : Bool)
  | int (n : Int)
  | num (q : Rat)
  | str (s : String)
  | arr (xs : List Json)
  | obj (kvs : List (String × Json))
deriving Repr

/-- Python values that can reach `to_json_array` / `_json_default`.  Dates and
datetimes are represented by their ISO-8601 rendering (what
`datetime.isoformat()` returns); `Decimal` by its exact rational value. -/
inductive PyVal where
  | none
  | bool (b : Bool)
  | int (n : Int)
  | float (q : Rat)
  | str (s : String)
  | list (xs : List PyVal)
  | tuple (xs : List PyVal)
  | set (xs : List PyVal)
  | dict (kvs : List (String × PyVal))
  | date (iso : String)
  | datetime (iso : String)
  | decimal (q : Rat)
deriving Repr

mutual

/-- `json.dumps` with `default=_json_default`, at the level of the JSON value
the emitted text denotes.  Native types are serialized directly; for a `date`,
`datetime` or `Decimal`, `json.dumps` calls `_json_default`, which returns
`o.isoformat()` resp. `float(o)`.  A `set` nested inside the structure falls
through `_json_default` to the `str(o)` fallback, whose textual rendering is
not modelled (`Option.none`); no claim involves nested sets. -/
def dumpsVal : PyVal → Option Json
  | .none => some .null
  | .bool b => some (.bool b)
  | .int n => some (.int n)
  | .float q => some (.num q)
  | .str s => some (.str s)
  | .list xs => (dumpsList xs).map .arr
  | .tuple xs => (dumpsList xs).map .arr
  | .set _ => Option.none
  | .dict kvs => (dumpsKVs kvs).map .obj
  | .date iso => some (.str iso)
  | .datetime iso => some (.str iso)
  | .decimal q => some (.num q)

/-- Serialize the elements of a Python list/tuple in order. -/
def dumpsList : List PyVal → Option (List Json)
  | [] => some []
  | v :: vs =>
      match dumpsVal v, dumpsList vs with
      | some j, some js => some (j :: js)
      | _, _ => Option.none

/-- Serialize the entries of a Python dict in insertion order
(`sort_keys` is left at its default `False`). -/
def dumpsKVs : List (String × PyVal) → Option (List (String × Json))
  | [] => some []
  | (k, v) :: rest =>
      match dumpsVal v, dumpsKVs rest with
      | some j, some js => some ((k, j) :: js)
      | _, _ => Option.none

end

/-- `to_json_array`: `None` short-circuits to the string `"[]"` (the empty
JSON array); a `list`, `tuple` or `set` is normalized to a list and handed to
`json.dumps(..., default=_json_default)` (`ensure_ascii`/`sort_keys` left at
defaults, which affect only textual escaping and key order); any other value
raises `ValueError`. -/
def to_json_array : PyVal → Option (Except String Json)
  | .none => some (.ok (.arr []))
  | .list xs => (dumpsList xs).map (fun js => .ok (.arr js))
  | .tuple xs => (dumpsList xs).map (fun js => .ok (.arr js))
  | .set xs => (dumpsList xs).map (fun js => .ok (.arr js))
  | _ => some (.error "to_json_array expects a list/tuple/set")

/-- Tag test: is the value a Python `list`, `tuple` or `set`? -/
def isListTupleSet : PyVal → Bool
  | .list _ => true
  | .tuple _ => true
  | .set _ => true
  | _ => false

/-- C4 counterexample: contrary to the claim, `to_json_array(None)` does not
raise `ValueError`; the source short-circuits `None` to the string `"[]"`. -/
theorem to_json_array_none_counterexample :
    to_json_array PyVal.none = some (.ok (Json.arr [])) := rfl

/-- C4 (amended): every input other than `None` that is not a list, tuple or
set makes `to_json_array` raise `ValueError`; `None` instead yields `"[]"`. -/
theorem to_json_array_rejects_non_sequences (v : PyVal)
    (h1 : isListTupleSet v = false) (h2 : v ≠ PyVal.none) :
    to_json_array v =
      some (.error "to_json_array expects a list/tuple/set") := by
  cases v <;> simp_all [isListTupleSet, to_json_array]

theorem to_json_array_rejects_non_sequences_witness :
    to_json_array (PyVal.str "hello") =
      some (.error "to_json_array expects a list/tuple/set") :=
  to_json_array_rejects_non_sequences (PyVal.str "hello") rfl
    (fun h => PyVal.noConfusion h)

mutual

/-- Spec-side definition for the round-trip claim: the value the spec expects
`json.loads` to recover from the serialized text — each date/datetime replaced
by its ISO-8601 string, each `Decimal` by the corresponding float, JSON-native
values unchanged.  (A nested `set` is outside the claim; mapped to `null`.) -/
def specParsedVal : PyVal → Json
  | .none => .null
  | .bool b => .bool b
  | .int n => .int n
  | .float q => .num q
  | .str s => .str s
  | .list xs => .arr (specParsedList xs)
  | .tuple xs => .arr (specParsedList xs)
  | .set _ => .null
  | .dict kvs => .obj (specParsedKVs kvs)
  | .date iso => .str iso
  | .datetime iso => .str iso
  | .decimal q => .num q

/-- Elementwise expected parse of a list. -/
def specParsedList : List PyVal → List Json
  | [] => []
  | v :: vs => specParsedVal v :: specParsedList vs

/-- Entrywise expected parse of a mapping. -/
def specParsedKVs : List (String × PyVal) → List (String × Json)
  | [] => []
  | (k, v) :: rest => (k, specParsedVal v) :: specParsedKVs rest

end

/-- JSON-native scalar: serializable by `json.dumps` without the
`_json_default` hook. -/
def isJsonNativeScalar : PyVal → Bool
  | .none => true
  | .bool _ => true
  | .int _ => true
  | .float _ => true
  | .str _ => true
  | _ => false

/-- The element kinds named by the round-trip claim: dates, datetimes,
Decimal numbers, plain mappings of JSON-native values — plus bare JSON-native
scalars, which the claim leaves unchanged. -/
def roundTripElem : PyVal → Bool
  | .date _ => true
  | .datetime _ => true
  | .decimal _ => true
  | .dict kvs => kvs.all (fun kv => isJsonNativeScalar kv.2)
  | v => isJsonNativeScalar v

theorem dumpsVal_scalar (v : PyVal) (h : isJsonNativeScalar v = true) :
    dumpsVal v = some (specParsedVal v) := by
  cases v <;> simp_all [isJsonNativeScalar, dumpsVal, specParsedVal]

theorem dumpsKVs_scalar (kvs : List (String × PyVal))
    (h : kvs.all (fun kv => isJsonNativeScalar kv.2) = true) :
    dumpsKVs kvs = some (specParsedKVs kvs) := by
  induction kvs with
  | nil => rfl
  | cons kv rest ih =>
      obtain ⟨k, v⟩ := kv
      rw [List.all_cons] at h
      obtain ⟨h1, h2⟩ := Bool.and_eq_true_iff.mp h
      simp only [dumpsKVs, specParsedKVs, dumpsVal_scalar v h1, ih h2]

theorem dumpsVal_roundTrip (v : PyVal) (h : roundTripElem v = true) :
    dumpsVal v = some (specParsedVal v) := by
  cases v with
  | dict kvs =>
      simp only [roundTripElem] at h
      simp only [dumpsVal, specParsedVal, dumpsKVs_scalar kvs h,
        Option.map_some']
  | list xs => simp [roundTripElem, isJsonNativeScalar] at h
  | tuple xs => simp [roundTripElem, isJsonNativeScalar] at h
  | set xs => simp [roundTripElem, isJsonNativeScalar] at h
  | _ => rfl

theorem dumpsList_roundTrip (xs : List PyVal)
    (h : ∀ v ∈ xs, roundTripElem v = true) :
    dumpsList xs = some (specParsedList xs) := by
  induction xs with
  | nil => rfl
  | cons v vs ih =>
      simp only [dumpsList, specParsedList,
        dumpsVal_roundTrip v (h v (by simp)),
        ih (fun w hw => h w (by simp [hw]))]

/-- C6: serializing a list of dates, datetimes, Decimal numbers and plain
mappings of JSON-native values (JSON-native scalars allowed too) and parsing
the result yields the equivalent list: each date/datetime as its ISO-8601
string, each Decimal as the corresponding float, JSON-native values
unchanged. -/
theorem to_json_array_roundtrip (xs : List PyVal)
    (h : ∀ v ∈ xs, roundTripElem v = true) :
    to_json_array (PyVal.list xs) =
      some (.ok (Json.arr (specParsedList xs))) := by
  simp [to_json_array, dumpsList_roundTrip xs h]

/-- Heterogeneous sample list for the round-trip witness. -/
def sampleHeterogeneousList : List PyVal :=
  [PyVal.date "2024-01-15",
   PyVal.decimal (3 / 2),
   PyVal.dict [("a", PyVal.int 1), ("b", PyVal.str "x")],
   PyVal.datetime "2024-01-15T10:00:00",
   PyVal.int 7]

theorem to_json_array_roundtrip_witness :
    to_json_array (PyVal.list sampleHeterogeneousList) =
      some (.ok (Json.arr (specParsedList sampleHeterogeneousList))) :=
  to_json_array_roundtrip sampleHeterogeneousList (by decide)

/-- `endpoint.rstrip("/")`: strip trailing slashes. -/
def rstripSlash (s : String) : String :=
  String.mk ((s.toList.reverse.dropWhile (fun c => c = '/')).reverse)

/-- Factory state from `AzureOpenAIClientFactory.__init__`.  The
`azure_ad_token_provider` callable is opaque; only its presence (truthiness)
matters to the control flow, so it is modelled by a `Bool`. -/
structure AzureOpenAIClientFactory where
  endpoint : String
  apiVersion : String
  hasTokenProvider : Bool
  apiKey : Option String
deriving Repr

/-- `AzureOpenAIClientFactory.__init__`: raises `ValueError` when the
endpoint is falsy (absent or empty), otherwise stores the normalized
endpoint. -/
def AzureOpenAIClientFactory.init (endpoint : Option String)
    (apiVersion : String) (hasTokenProvider : Bool) (apiKey : Option String) :
    Except String AzureOpenAIClientFactory :=
  if pyTruthyStr endpoint = false then
    .error "Azure OpenAI endpoint is required (set AZURE_OPENAI_ENDPOINT)."
  else
    .ok { endpoint := rstripSlash (endpoint.getD "")
          apiVersion := apiVersion
          hasTokenProvider := hasTokenProvider
          apiKey := apiKey }

/-- Which credential the built client carries. -/
inductive AzureAuth where
  | tokenProvider
  | apiKey (key : String)
deriving Repr

/-- The configured `AzureOpenAI` client: a pure record of the keyword
arguments passed to the SDK constructor; building it performs no network
I/O. -/
structure AzureOpenAIClient where
  azureEndpoint : String
  apiVersion : String
  auth : AzureAuth
deriving Repr

/-- `create_client`: prefer the AAD token provider, then a truthy API key,
else raise `ValueError`. -/
def AzureOpenAIClientFactory.create_client (f : AzureOpenAIClientFactory) :
    Except String AzureOpenAIClient :=
  if f.hasTokenProvider then
    .ok { azureEndpoint := f.endpoint, apiVersion := f.apiVersion,
          auth := .tokenProvider }
  else if pyTruthyStr f.apiKey then
    .ok { azureEndpoint := f.endpoint, apiVersion := f.apiVersion,
          auth := .apiKey (f.apiKey.getD "") }
  else
    .error "Provide either azure_ad_token_provider or api_key."

/-- Constructing an authenticated client end to end, as the examples do:
`__init__` followed by `create_client`. -/
def buildAuthenticatedClient (endpoint : Option String) (apiVersion : String)
    (hasTokenProvider : Bool) (apiKey : Option String) :
    Except String AzureOpenAIClient :=
  (AzureOpenAIClientFactory.init endpoint apiVersion hasTokenProvider
    apiKey).bind AzureOpenAIClientFactory.create_client

/-- C5: client construction fails with `ValueError` — purely, before any
network call — when the endpoint is absent, or when neither a token provider
nor a (truthy) API key is supplied. -/
theorem client_construction_requires_endpoint_and_auth
    (endpoint : Option String) (apiVersion : String) (hasTokenProvider : Bool)
    (apiKey : Option String)
    (h : pyTruthyStr endpoint = false ∨
      (hasTokenProvider = false ∧ pyTruthyStr apiKey = false)) :
    (buildAuthenticatedClient endpoint apiVersion hasTokenProvider
      apiKey).isOk = false := by
  rcases h with h | ⟨h1, h2⟩
  · simp [buildAuthenticatedClient, AzureOpenAIClientFactory.init, h,
      Except.isOk, Except.toBool, Except.bind]
  · unfold buildAuthenticatedClient AzureOpenAIClientFactory.init
    by_cases he : pyTruthyStr endpoint = false
    · simp [he, Except.isOk, Except.toBool, Except.bind]
    · simp [he, AzureOpenAIClientFactory.create_client, h1, h2,
        Except.isOk, Except.toBool, Except.bind]

theorem client_construction_requires_endpoint_and_auth_witness :
    (buildAuthenticatedClient (some "https://example.openai.azure.com/")
      "2024-10-21" false Option.none).isOk = false :=
  client_construction_requires_endpoint_and_auth
    (some "https://example.openai.azure.com/") "2024-10-21" false Option.none
    (Or.inr ⟨rfl, rfl⟩)

/-- The terminal batch-job states of the polling loop. -/
def terminalStates : List String := ["completed", "failed", "cancelled"]

/-- Is the polled status (possibly `None`) terminal? -/
def isTerminal : Option String → Bool
  | Option.none => false
  | some s => terminalStates.contains s

/-- Seconds slept between polls: `time.sleep(5)`. -/
def pollIntervalSeconds : Nat := 5

/-- The polling loop of `examples/azure_batch_chat.py`, run with explicit
fuel.  `statuses k` is the status observed after the k-th retrieve
(`statuses 0` is the status on the just-submitted batch object).  Returns the
final status, the iteration count and the total seconds slept; `Option.none`
when the loop is still running after `fuel` iterations. -/
def pollBatch (statuses : Nat → Option String) (fuel k slept : Nat) :
    Option (Option String × Nat × Nat) :=
  if isTerminal (statuses k) then some (statuses k, k, slept)
  else
    match fuel with
    | 0 => Option.none
    | f + 1 => pollBatch statuses f (k + 1) (slept + pollIntervalSeconds)

theorem pollBatch_sound (statuses : Nat → Option String) :
    ∀ (fuel k0 slept0 : Nat) (st : Option String) (k slept : Nat),
      pollBatch statuses fuel k0 slept0 = some (st, k, slept) →
      k0 ≤ k ∧ st = statuses k ∧ isTerminal st = true ∧
      slept = slept0 + pollIntervalSeconds * (k - k0) ∧
      ∀ j, k0 ≤ j → j < k → isTerminal (statuses j) = false := by
  intro fuel
  induction fuel with
  | zero =>
      intro k0 slept0 st k slept h
      rw [pollBatch] at h
      by_cases ht : isTerminal (statuses k0) = true
      · rw [if_pos ht] at h
        simp only [Option.some.injEq, Prod.mk.injEq] at h
        obtain ⟨h1, h2, h3⟩ := h
        subst h2
        subst h3
        subst h1
        refine ⟨Nat.le_refl _, rfl, ht, by simp, ?_⟩
        intro j hj1 hj2
        omega
      · rw [if_neg ht] at h
        cases h
  | succ f ih =>
      intro k0 slept0 st k slept h
      rw [pollBatch] at h
      by_cases ht : isTerminal (statuses k0) = true
      · rw [if_pos ht] at h
        simp only [Option.some.injEq, Prod.mk.injEq] at h
        obtain ⟨h1, h2, h3⟩ := h
        subst h2
        subst h3
        subst h1
        refine ⟨Nat.le_refl _, rfl, ht, by simp, ?_⟩
        intro j hj1 hj2
        omega
      · rw [if_neg ht] at h
        obtain ⟨hk, hst, hterm, hslept, hprev⟩ :=
          ih (k0 + 1) (slept0 + pollIntervalSeconds) st k slept h
        refine ⟨by omega, hst, hterm, ?_, ?_⟩
        · simp only [pollIntervalSeconds] at hslept ⊢
          omega
        · intro j hj1 hj2
          rcases Nat.eq_or_lt_of_le hj1 with rfl | hj'
          · simpa using ht
          · exact hprev j hj' hj2

theorem pollBatch_diverge (statuses : Nat → Option String)
    (h : ∀ i, isTerminal (statuses i) = false) :
    ∀ fuel k slept, pollBatch statuses fuel k slept = Option.none := by
  intro fuel
  induction fuel with
  | zero =>
      intro k slept
      rw [pollBatch, if_neg (by simp [h k])]
  | succ f ih =>
      intro k slept
      rw [pollBatch, if_neg (by simp [h k])]
      exact ih (k + 1) (slept + pollIntervalSeconds)

/-- C8: the polling loop exits only when the status is terminal — one of
{completed, failed, cancelled}, per `isTerminal` — having slept the fixed
interval once per iteration (total `pollIntervalSeconds * k` seconds) with
every earlier poll non-terminal; and on a status stream that never reaches a
terminal state the loop never exits, whatever the fuel (no maximum-attempts
cutoff). -/
theorem poll_loop_terminal_only (statuses : Nat → Option String) :
    (∀ fuel st k slept,
      pollBatch statuses fuel 0 0 = some (st, k, slept) →
        isTerminal st = true ∧ st = statuses k ∧
        slept = pollIntervalSeconds * k ∧
        ∀ j, j < k → isTerminal (statuses j) = false) ∧
    ((∀ i, isTerminal (statuses i) = false) →
      ∀ fuel, pollBatch statuses fuel 0 0 = Option.none) := by
  constructor
  · intro fuel st k slept h
    obtain ⟨_, hst, hterm, hslept, hprev⟩ :=
      pollBatch_sound statuses fuel 0 0 st k slept h
    exact ⟨hterm, hst, by simpa using hslept,
      fun j hj => hprev j (Nat.zero_le j) hj⟩
  · intro h fuel
    exact pollBatch_diverge statuses h fuel 0 0

/-- Witness status stream: two non-terminal polls, then `completed`. -/
def sampleStatuses : Nat → Option String :=
  fun i => if i < 2 then some "in_progress" else some "completed"

/-- Witness status stream that never reaches a terminal state. -/
def stuckStatuses : Nat → Option String :=
  fun _ => some "validating"

theorem poll_loop_terminal_only_witness :
    (isTerminal (some "completed") = true ∧
      (some "completed" : Option String) = sampleStatuses 2 ∧
      (10 : Nat) = pollIntervalSeconds * 2) ∧
    pollBatch stuckStatuses 7 0 0 = Option.none := by
  constructor
  · have h := (poll_loop_terminal_only sampleStatuses).1 10 (some "completed")
      2 10 (by decide)
    exact ⟨h.1, h.2.1, h.2.2.1⟩
  · exact (poll_loop_terminal_only stuckStatuses).2 (fun i => rfl) 7

/-- Result correlation from `examples/azure_batch_chat.py`: for each prompt,
in input order, look up its `custom_id` (`f"task-{i}"`) in the parsed result
mapping, falling back to the sentinel
(`by_custom_id.get(cid, "<missing>")`). -/
def correlateResults (byCustomId : String → Option String)
    (prompts : List String) : List (String × String) :=
  prompts.enum.map (fun ip =>
    (ip.2, (byCustomId ("task-" ++ toString ip.1)).getD "<missing>"))

/-- C9: result correlation is total — one output row per prompt, in input
order — and a prompt whose `custom_id` is absent from the parsed mapping is
paired with the sentinel `"<missing>"` instead of raising. -/
theorem batch_results_missing_sentinel (byCustomId : String → Option String)
    (prompts : List String) :
    (correlateResults byCustomId prompts).length = prompts.length ∧
    ∀ (i : Nat) (p : String), prompts[i]? = some p →
      byCustomId ("task-" ++ toString i) = Option.none →
      (correlateResults byCustomId prompts)[i]? =
        some (p, "<missing>") := by
  constructor
  · simp [correlateResults]
  · intro i p hp habsent
    simp [correlateResults, List.getElem?_map, List.getElem?_enum, hp,
      habsent]

/-- Witness result mapping: the download produced no parsed rows. -/
def emptyResultMapping : String → Option String :=
  fun _ => Option.none

theorem batch_results_missing_sentinel_witness :
    (correlateResults emptyResultMapping ["a", "b", "c"]).length = 3 ∧
    (correlateResults emptyResultMapping ["a", "b", "c"])[1]? =
      some ("b", "<missing>") :=
  ⟨(batch_results_missing_sentinel emptyResultMapping ["a", "b", "c"]).1,
    (batch_results_missing_sentinel emptyResultMapping ["a", "b", "c"]).2
      1 "b" rfl rfl⟩

/-- A tiny heap of message-list objects, for the aliasing claim: addresses
are indices, allocation appends. -/
structure Heap where
  lists : List (List Message)
deriving Repr

/-- Allocate a fresh list object; returns the new heap and its address. -/
def Heap.alloc (h : Heap) (l : List Message) : Heap × Nat :=
  ({ lists := h.lists ++ [l] }, h.lists.length)

/-- Read the list object stored at an address. -/
def Heap.get (h : Heap) (r : Nat) : List Message :=
  (h.lists[r]?).getD []

/-- In-place mutation of the list object at an address: appending, removing
or reordering entries is some transformation `f` of its contents. -/
def Heap.mutate (h : Heap) (r : Nat) (f : List Message → List Message) :
    Heap :=
  { lists := h.lists.set r (f (h.get r)) }

/-- `ChatSession.history`: `return list(self.messages)` — allocate a fresh
list object with the same contents as the session's internal `messages`
object at `messagesRef`. -/
def Heap.history (h : Heap) (messagesRef : Nat) : Heap × Nat :=
  h.alloc (h.get messagesRef)

/-- C10: `history()` returns a fresh list equal to the internal message
history — a different object — and mutating the returned list leaves the
session's internal history unchanged. -/
theorem history_returns_fresh_copy (h : Heap) (messagesRef : Nat)
    (f : List Message → List Message) (href : messagesRef < h.lists.length) :
    (h.history messagesRef).1.get (h.history messagesRef).2 =
      h.get messagesRef ∧
    (h.history messagesRef).2 ≠ messagesRef ∧
    ((h.history messagesRef).1.mutate (h.history messagesRef).2 f).get
        messagesRef = h.get messagesRef := by
  refine ⟨?_, ?_, ?_⟩
  · simp [Heap.history, Heap.alloc, Heap.get, List.getElem?_concat_length]
  · simp only [Heap.history, Heap.alloc]
    omega
  · simp only [Heap.history, Heap.alloc, Heap.mutate, Heap.get]
    rw [List.getElem?_set_ne (by omega)]
    rw [List.getElem?_append, if_pos href]

/-- Sample heap for the aliasing witness: one session history object. -/
def sampleHeap : Heap :=
  { lists := [[⟨"system", "sys"⟩]] }

/-- Sample mutation of the returned history list. -/
def appendUserHi : List Message → List Message :=
  fun l => l ++ [⟨"user", "hi"⟩]

theorem history_returns_fresh_copy_witness :
    (sampleHeap.history 0).1.get (sampleHeap.history 0).2 =
      sampleHeap.get 0 ∧
    (sampleHeap.history 0).2 ≠ 0 ∧
    ((sampleHeap.history 0).1.mutate (sampleHeap.history 0).2
        appendUserHi).get 0 = sampleHeap.get 0 :=
  history_returns_fresh_copy sampleHeap 0 appendUserHi (by decide)

end ChatRepo
